import Mathlib

/-!
# Verification of the zustand-crud-registry core

A shallow embedding of the store-registry and action-dispatch engine:

* `src/config.ts` — `getDetailRoute`, `validateConfig`;
* `src/createStoreRegistry.ts` — the registry, the zustand store state and its
  mutation primitives (`setList`, `patchList`, `setInstance`, `updateInstance`,
  `deleteInstance`, `setCount`, `setLoadingState`, `setState`);
* `src/loadingState.ts` — `defaultLoadingState`, `getLoadingState`,
  `setLoadingState`, `initiateAction`, `finishAction`, `actionError`;
* `src/useCrud.ts` — the action-dispatch protocol of `getAction`, linearized
  into a pure big-step function (async timing collapsed; the mock transport
  outcome is an explicit parameter).

JavaScript runtime values are modelled by the inductive `Val`; plain objects
are association lists with JS object-spread (right-biased) semantics; object
keys are strings, numeric keys being coerced by `toString`.
-/

namespace ZCrud

/-- A JavaScript runtime value. `vundefined` is `undefined`, `vnull` is `null`.
Numbers are modelled as integers (no claim involves fractional values). -/
inductive Val where
  | vundefined
  | vnull
  | vbool (b : Bool)
  | vint (n : Int)
  | vstr (s : String)
  | vobj (fields : List (String × Val))
  | varr (items : List Val)
  deriving Repr

/-- A plain JS object: an association list of own properties. -/
abbrev Obj := List (String × Val)

/-- JS truthiness. `undefined`, `null`, `false`, `0` and `""` are falsy;
objects and arrays are always truthy. -/
def truthy : Val → Bool
  | .vundefined => false
  | .vnull => false
  | .vbool b => b
  | .vint n => n != 0
  | .vstr s => s != ""
  | .vobj _ => true
  | .varr _ => true

/-- `a || b`: JS logical-or returns `a` when truthy, else `b`. -/
def jsOr (a b : Val) : Val := if truthy a then a else b

/-- `a ?? b`: JS nullish coalescing. -/
def jsNullish (a b : Val) : Val :=
  match a with
  | .vundefined => b
  | .vnull => b
  | v => v

/-- Property lookup on an association list (objects hold unique keys, so
first match suffices). -/
def getEntry (o : List (String × α)) (k : String) : Option α :=
  (o.find? (fun p => p.1 == k)).map (·.2)

/-- `{ ...o, [k]: v }` / `o[k] = v`: replace the binding in place when the key
exists (JS preserves insertion order), else append it. -/
def setEntry : List (String × α) → String → α → List (String × α)
  | [], k, v => [(k, v)]
  | p :: o, k, v => if p.1 = k then (k, v) :: o else p :: setEntry o k v

/-- `delete o[k]`. -/
def delEntry (o : List (String × α)) (k : String) : List (String × α) :=
  o.filter (fun p => p.1 != k)

/-- `o[k]` on a plain object, `undefined` when absent. Property access on
non-objects used by this code base always yields `undefined` (no claim reads
string indices or array `length` through this path). -/
def jsGet (v : Val) (k : String) : Val :=
  match v with
  | .vobj fields => (getEntry fields k).getD .vundefined
  | _ => .vundefined

/-- `v?.k`: optional chaining; on `null`/`undefined` the chain yields
`undefined`, otherwise it is a plain property access. -/
def jsOptGet (v : Val) (k : String) : Val :=
  match v with
  | .vundefined => .vundefined
  | .vnull => .vundefined
  | v => jsGet v k

/-- The own properties contributed by `...v` in an object literal: objects
contribute their fields; `null`/`undefined` and primitives contribute none. -/
def spreadOf (v : Val) : Obj :=
  match v with
  | .vobj fields => fields
  | _ => []

/-- `{ ...a, ...b }`: right-biased shallow merge of two objects. -/
def mergeObj (a b : Obj) : Obj :=
  b.foldl (fun acc p => setEntry acc p.1 p.2) a

/-- String coercion of a value used as an object key (JS coerces computed
keys with `toString`). -/
def valToKeyString : Val → String
  | .vundefined => "undefined"
  | .vnull => "null"
  | .vbool b => if b then "true" else "false"
  | .vint n => toString n
  | .vstr s => s
  | .vobj _ => "[object Object]"
  | .varr _ =>
      -- JS coerces an array key by joining its coerced elements with ","
      -- (Array.prototype.toString). No code path of this development coerces
      -- an array to an object key, so the branch is kept non-recursive to
      -- preserve kernel reducibility; the marker never equals a scalar key.
      "\x5bobject Array\x5d"

/-! ## Loading state (`src/loadingState.ts`) -/

/-- `LoadingStateValue`. -/
structure LoadingStateValue where
  isLoading : Bool
  error : Val
  response : Val
  id : Val
  sequence : Int
  deriving Repr

/-- `defaultLoadingState`: `{isLoading: false, error: null,
response: undefined, id: undefined, sequence: 0}`. -/
def defaultLoadingState : LoadingStateValue :=
  ⟨false, .vnull, .vundefined, .vundefined, 0⟩

/-- `Partial<LoadingStateValue>`: each field is present (`some`) or absent. -/
structure LoadingStatePartial where
  isLoadingP : Option Bool
  errorP : Option Val
  responseP : Option Val
  idP : Option Val
  sequenceP : Option Int
  deriving Repr

/-- The all-absent partial `{}`. -/
def emptyPartial : LoadingStatePartial := ⟨none, none, none, none, none⟩

/-- `{ ...base, ...p }` for a complete entry and a partial update. -/
def applyPartial (base : LoadingStateValue) (p : LoadingStatePartial) :
    LoadingStateValue :=
  ⟨p.isLoadingP.getD base.isLoading,
   p.errorP.getD base.error,
   p.responseP.getD base.response,
   p.idP.getD base.id,
   p.sequenceP.getD base.sequence⟩

/-- `{ ...a, ...b }` for two partial updates (fields of `b` win). -/
def overlayPartial (a b : LoadingStatePartial) : LoadingStatePartial :=
  ⟨b.isLoadingP <|> a.isLoadingP,
   b.errorP <|> a.errorP,
   b.responseP <|> a.responseP,
   b.idP <|> a.idP,
   b.sequenceP <|> a.sequenceP⟩

/-! ## Store state and mutation primitives (`src/createStoreRegistry.ts`) -/

/-- The zustand `CrudState` of a store: `record` (the Collection, `null`
until first fetch), `count`, the loading-state map, and the local `state`
blob (`undefined` when the config supplied none). -/
structure StoreState where
  record : Option (List (String × Val))
  count : Int
  loadingState : List (String × LoadingStateValue)
  localState : Val
  deriving Repr

/-- `setList`: replace the Collection with the (arbitrary JS values of the)
given array keyed by `byKey` via `Object.fromEntries`. -/
def setList (byKey : String) (S : StoreState) (data : List Val) : StoreState :=
  let newRec :=
    data.foldl
      (fun acc item => setEntry acc (valToKeyString (jsGet item byKey)) item) []
  { S with record := some newRec }

/-- One step of `patchList`'s loop body: merge `item` into the copied record
when `record[id]` is truthy, else do nothing. -/
def patchStep (byKey : String) (rec : List (String × Val)) (item : Val) :
    List (String × Val) :=
  let id := valToKeyString (jsGet item byKey)
  let stored := (getEntry rec id).getD .vundefined
  if truthy stored
  then setEntry rec id (.vobj (mergeObj (spreadOf stored) (spreadOf item)))
  else rec

/-- `patchList`: no-op while `record` is `null`; otherwise sequentially merge
each partial into the stored record with the same key. -/
def patchList (byKey : String) (S : StoreState) (data : List Val) : StoreState :=
  match S.record with
  | none => S
  | some rec => { S with record := some (data.foldl (patchStep byKey) rec) }

/-- `setInstance`: upsert `instance` at its key; increment `count` by 1
exactly when `state.record && state.record[key]` is falsy. -/
def setInstance (byKey : String) (S : StoreState) (instance_ : Val) : StoreState :=
  let k := valToKeyString (jsGet instance_ byKey)
  let present : Bool :=
    match S.record with
    | some rec => truthy ((getEntry rec k).getD .vundefined)
    | none => false
  { S with
    record := some (setEntry (S.record.getD []) k instance_),
    count := S.count + (if present then 0 else 1) }

/-- `updateInstance`: no-op while `record` is `null`; otherwise store
`{ ...state.record[byKey] || {}, ...instance }` at the instance's key.
Note the source spreads `state.record[byKey]` — the record stored under the
literal key-field *name* — not `state.record[instance[byKey]]`. -/
def updateInstance (byKey : String) (S : StoreState) (instance_ : Val) : StoreState :=
  match S.record with
  | none => S
  | some rec =>
      let k := valToKeyString (jsGet instance_ byKey)
      let base := jsOr ((getEntry rec byKey).getD .vundefined) (.vobj [])
      let merged := Val.vobj (mergeObj (spreadOf base) (spreadOf instance_))
      { S with record := some (setEntry rec k merged) }

/-- `deleteInstance`: no-op while `record` is `null`; otherwise delete the
key of the *argument* when present, and decrement `count` by 1 floored at 0
(the decrement is unconditional in the source). -/
def deleteInstance (byKey : String) (S : StoreState) (instance_ : Val) : StoreState :=
  match S.record with
  | none => S
  | some rec =>
      let k := valToKeyString (jsGet instance_ byKey)
      let newList :=
        if truthy ((getEntry rec k).getD .vundefined) then delEntry rec k else rec
      { S with
        record := some newList,
        count := if S.count > 0 then S.count - 1 else 0 }

/-- `setCount`. -/
def setCount (S : StoreState) (count : Int) : StoreState :=
  { S with count := count }

/-- The store's `setLoadingState`: overwrite the entry at `key` with
`{...defaultLoadingState, ...(prev ? {...prev, sequence: prev.sequence + 1} : {}),
...value}`. -/
def setLoadingState (S : StoreState) (key : String)
    (value : LoadingStatePartial) : StoreState :=
  let base :=
    match getEntry S.loadingState key with
    | some prev => { prev with sequence := prev.sequence + 1 }
    | none => defaultLoadingState
  { S with loadingState := setEntry S.loadingState key (applyPartial base value) }

/-- `setState`: `{ ...state.state || {}, ...subState }`. -/
def setSubState (S : StoreState) (subState : Val) : StoreState :=
  let merged := Val.vobj (mergeObj (spreadOf (jsOr S.localState (.vobj []))) (spreadOf subState))
  { S with localState := merged }

/-- `getLoadingState` (`src/loadingState.ts`): the stored entry, or the
default entry when the action has never been written. -/
def getLoadingState (S : StoreState) (action : String) : LoadingStateValue :=
  (getEntry S.loadingState action).getD defaultLoadingState

/-- `initiateAction`: `setLoadingState` with
`{isLoading: true, error: null, response: null, id: null, ...extra}`. -/
def initiateAction (S : StoreState) (action : String)
    (extra : LoadingStatePartial) : StoreState :=
  setLoadingState S action
    (overlayPartial ⟨some true, some .vnull, some .vnull, some .vnull, none⟩ extra)

/-- `finishAction`: `setLoadingState` with `{isLoading: false, error: null,
id: response?.id || null, response}` (the `response` parameter defaults to
`null` at the call sites that omit it). -/
def finishAction (S : StoreState) (action : String) (response : Val) : StoreState :=
  setLoadingState S action
    ⟨some false, some .vnull, some response,
     some (jsOr (jsOptGet response "id") .vnull), none⟩

/-- `actionError`: `setLoadingState` with
`{isLoading: false, error, response: null}` (the `id` field is not written). -/
def actionError (S : StoreState) (action : String) (error : Val) : StoreState :=
  setLoadingState S action ⟨some false, some error, some .vnull, none, none⟩

/-! ## Configuration validator (`src/config.ts`) -/

/-- Handlers and transforms carried by a configuration are opaque function
values; they are modelled by labels so resolved configurations stay
comparable. -/
abbrev FuncVal := String

/-- `RouteOptions`: the `{args, params}` second argument of a route
function. -/
structure RouteOptions where
  args : Val
  params : Val

/-- A `Route`: a string, or a function of `(data, {args, params})`. -/
inductive RouteV where
  | rstr (s : String)
  | rfun (f : Val → RouteOptions → String)

/-- Apply a route: a function route is invoked, a string route ignores the
payload. -/
def applyRoute (r : RouteV) (data : Val) (opts : RouteOptions) : String :=
  match r with
  | .rstr s => s
  | .rfun f => f data opts

/-- `s.endsWith("/")`, modelled on the character list (the core
`String.endsWith` does not reduce in the kernel). -/
def endsWithSlash (s : String) : Bool := s.data.getLast? == some (Char.ofNat 47)

/-- `getDetailRoute(route, id)`: a function route is returned verbatim; a
string route becomes a function appending the payload's key value, with the
trailing-slash style preserved; a `null` route is coerced by the template
literal to the string `"null"` (and is falsy in both `endsWith` guards). -/
def getDetailRoute (route : Option RouteV) (id : String) : RouteV :=
  match route with
  | some (.rfun f) => .rfun f
  | some (.rstr s) =>
      .rfun (fun data _ =>
        s ++ (if endsWithSlash s then "" else "/")
          ++ valToKeyString (match data with | .vobj fields => (getEntry fields id).getD .vundefined | d => d)
          ++ (if endsWithSlash s then "/" else ""))
  | none =>
      .rfun (fun data _ =>
        "null" ++ "/"
          ++ valToKeyString (match data with | .vobj fields => (getEntry fields id).getD .vundefined | d => d))

/-- A per-action override object (`Partial<...Config<T>>`): every field is
either present with a defined value or absent. (A field present with the
value `undefined` is expressible in JS but ruled out by the TypeScript
types; it is outside this model.) -/
structure ActionOverride where
  methodP : Option String
  prepareP : Option FuncVal
  callbackP : Option FuncVal
  onErrorP : Option FuncVal
  prepareResponseP : Option FuncVal
  routeP : Option RouteV

/-- The all-absent override `{}`. -/
def emptyOverride : ActionOverride := ⟨none, none, none, none, none, none⟩

/-- The value of one standard-action slot in `config.actions`: a boolean or
an override object. -/
inductive ActionSetting where
  | abool (b : Bool)
  | aoverride (o : ActionOverride)

/-- The `select` slot: `false | 'single' | 'multiple'`. -/
inductive SelectVal where
  | sfalse
  | ssingle
  | smultiple
  deriving Repr, DecidableEq

/-- The `actions` map of a raw configuration; absent slots are `none`. -/
structure ActionsCfg where
  getP : Option ActionSetting
  getListP : Option ActionSetting
  createP : Option ActionSetting
  updateP : Option ActionSetting
  deleteP : Option ActionSetting
  selectP : Option SelectVal

/-- A custom-action configuration: `route` is required, everything else
optional. -/
structure CustomActionCfg where
  route : RouteV
  methodP : Option String
  onErrorP : Option FuncVal
  callbackP : Option FuncVal
  prepareP : Option FuncVal
  handleResponseP : Option FuncVal

/-- The raw configuration passed to `validateConfig` / `getOrCreateStore`.
The opaque `axios` transport handle carries no behaviour relevant to the
claims and is omitted from the model. -/
structure RawConfig where
  idP : Option String
  parseIdToIntP : Option Bool
  byKeyP : Option String
  stateP : Option Obj
  route : RouteV
  customActionsP : Option (List (String × CustomActionCfg))
  onErrorP : Option FuncVal
  includeRecordP : Option Bool
  actionsP : Option ActionsCfg

/-- A fully-resolved standard action entry
(`null`-valued handler slots are `none`). -/
structure ResolvedAction where
  method : String
  prepare : Option FuncVal
  callback : Option FuncVal
  onError : Option FuncVal
  prepareResponse : Option FuncVal
  route : RouteV

/-- A resolved custom action entry. -/
structure ResolvedCustom where
  route : RouteV
  onError : Option FuncVal
  method : String
  callbackP : Option FuncVal
  prepareP : Option FuncVal
  handleResponseP : Option FuncVal

/-- The resolved `actions` table: an absent entry means the action is
disabled. -/
structure ResolvedActions where
  get : Option ResolvedAction
  getList : Option ResolvedAction
  create : Option ResolvedAction
  update : Option ResolvedAction
  delete : Option ResolvedAction
  select : SelectVal

/-- The output of `validateConfig`. -/
structure ValidatedCfg where
  id : String
  byKey : String
  parseIdToInt : Bool
  state : Obj
  onError : Option FuncVal
  includeRecord : Bool
  actions : ResolvedActions
  customActions : List (String × ResolvedCustom)
  route : RouteV

/-- `{...default, ...override}` for a standard action entry. -/
def applyOverride (d : ResolvedAction) (o : ActionOverride) : ResolvedAction :=
  ⟨o.methodP.getD d.method,
   o.prepareP <|> d.prepare,
   o.callbackP <|> d.callback,
   o.onErrorP <|> d.onError,
   o.prepareResponseP <|> d.prepareResponse,
   o.routeP.getD d.route⟩

/-- Resolve one standard-action slot: falsy (`false` or absent) disables it,
`true` takes the defaults, an object overlays the defaults. -/
def resolveAction (d : ResolvedAction) : Option ActionSetting → Option ResolvedAction
  | none => none
  | some (.abool false) => none
  | some (.abool true) => some d
  | some (.aoverride o) => some (applyOverride d o)

/-- `validateConfig` (`src/config.ts:157-286`). -/
def validateConfig (config : RawConfig) : ValidatedCfg :=
  let id := config.idP.getD "id"
  let parseIdToInt := config.parseIdToIntP.getD false
  -- `byKey = null` default, then `byKey ? byKey : id` (an empty string is
  -- falsy and also falls back to `id`)
  let byKey :=
    match config.byKeyP with
    | some s => if s != "" then s else id
    | none => id
  let onError := config.onErrorP
  let actions : ActionsCfg :=
    match config.actionsP with
    | none => ⟨some (.abool true), some (.abool true), some (.abool true),
               some (.abool true), some (.abool true), some .sfalse⟩
    | some a => a
  let detailRoute := getDetailRoute (some config.route) id
  let getListD : ResolvedAction := ⟨"get", none, none, onError, none, config.route⟩
  let createD : ResolvedAction := ⟨"post", none, none, onError, none, config.route⟩
  let getD : ResolvedAction := ⟨"get", none, none, onError, none, detailRoute⟩
  let updateD : ResolvedAction := ⟨"patch", none, none, onError, none, detailRoute⟩
  -- the delete default object carries no `prepareResponse` key in the source;
  -- the uniform record models that absent key as `none`
  let deleteD : ResolvedAction := ⟨"delete", none, none, onError, none, detailRoute⟩
  let select :=
    match actions.selectP with
    | none => SelectVal.sfalse
    | some .sfalse => SelectVal.sfalse
    | some .smultiple => SelectVal.smultiple
    | some .ssingle => SelectVal.ssingle
  let customActions :=
    (config.customActionsP.getD []).map (fun p =>
      (p.1, ({ route := p.2.route,
               onError := p.2.onErrorP <|> onError,
               method := p.2.methodP.getD "get",
               callbackP := p.2.callbackP,
               prepareP := p.2.prepareP,
               handleResponseP := p.2.handleResponseP } : ResolvedCustom)))
  { id := id,
    byKey := byKey,
    parseIdToInt := parseIdToInt,
    state := config.stateP.getD [],
    onError := onError,
    includeRecord := config.includeRecordP.getD false,
    actions :=
      ⟨resolveAction getD actions.getP,
       resolveAction getListD actions.getListP,
       resolveAction createD actions.createP,
       resolveAction updateD actions.updateP,
       resolveAction deleteD actions.deleteP,
       select⟩,
    customActions := customActions,
    route := config.route }

/-! ## Store registry (`src/createStoreRegistry.ts`) -/

/-- A registered store: the `key` and validated `config` attached by
`Object.assign`, plus the zustand state (`record: null`, `count: 0`, empty
loading-state map, `state: rawConfig.state` — the *raw* state, which is
`undefined` when the config supplied none). -/
structure Store where
  key : String
  config : ValidatedCfg
  state : StoreState

/-- The fresh store allocated on a registry miss. -/
def mkStore (key : String) (rawConfig : RawConfig) : Store :=
  { key := key,
    config := validateConfig rawConfig,
    state := ⟨none, 0, [],
      match rawConfig.stateP with
      | some o => .vobj o
      | none => .vundefined⟩ }

/-- The process-wide registry: a map from entity key to its store. -/
abbrev Registry := List (String × Store)

/-- `getOrCreateStore(key, rawConfig)`: on a miss, validate the config and
register a new store; on a hit (`storeRegistry[key]` is truthy — a store
object is always truthy) return the stored instance and leave the registry
untouched. -/
def getOrCreateStore (reg : Registry) (key : String) (rawConfig : RawConfig) :
    Store × Registry :=
  match getEntry reg key with
  | some store => (store, reg)
  | none =>
      let store := mkStore key rawConfig
      (store, setEntry reg key store)

/-! ## Action dispatch (`src/useCrud.ts`, `getAction`)

The async callable produced by `getAction` is linearized into a pure
big-step function: the transport outcome (`await axios(...)`) is an explicit
`Except` parameter, and the callbacks fired through `callIfFunc` are recorded
as an ordered trace instead of being invoked. -/

/-- The `actionKey` parameter of `getAction`; a custom action carries its
configured name. -/
inductive ActionKey where
  | get
  | getList
  | create
  | update
  | delete
  | custom (name : String)
  deriving Repr, DecidableEq

/-- The literal string value of the TS `actionKey` parameter (`'custom'` for
every custom action). -/
def ActionKey.literal : ActionKey → String
  | .get => "get"
  | .getList => "getList"
  | .create => "create"
  | .update => "update"
  | .delete => "delete"
  | .custom _ => "custom"

/-- `loadingStateKey`: the custom action's own name when present, else the
action key. -/
def ActionKey.lsKey : ActionKey → String
  | .custom name => name
  | k => k.literal

/-- Which optional callbacks are attached (`act.sideEffects`, the
descriptor's `callback`/`onError`, and the call-site `callback`/`onError`);
`callIfFunc` fires each one exactly when it is a function. -/
structure HandlerPresence where
  hasSideEffects : Bool
  hasActionCallback : Bool
  hasCallerCallback : Bool
  hasActionOnError : Bool
  hasCallerOnError : Bool

/-- One recorded callback invocation. -/
inductive HandlerCall where
  | sideEffects (v : Val)
  | actionCallback (v : Val)
  | callerCallback (v : Val)
  | actionOnError (v : Val)
  | callerOnError (v : Val)
  deriving Repr

/-- The observable outcome of one dispatch: the final store state, the value
the returned promise resolves to, whether the transport was invoked, and the
ordered callback trace. -/
structure DispatchResult where
  state : StoreState
  returned : Val
  transportCalled : Bool
  calls : List HandlerCall

/-- `getList` response normalization:
`Array.isArray(data) ? data : data.results` plus
`data.count ?? results.length`. A response that is neither an array nor an
object with an array `results` makes `results.length` throw inside the `try`
block, modelled as `none`. Counts are modelled as integers; a present
non-nullish `count` field must be a number here (a non-numeric count is
outside the model). -/
def getListExtract (rd : Val) : Option (List Val × Int) :=
  match rd with
  | .varr items => some (items, (items.length : Int))
  | _ =>
      match jsGet rd "results" with
      | .varr items =>
          some (items,
            match jsGet rd "count" with
            | .vint n => n
            | _ => (items.length : Int))
      | _ => none

/-- The per-action Collection mutation applied on transport success, and the
(possibly normalized) `responseData`; `none` models the `TypeError` thrown
while normalizing a malformed `getList` response. -/
def applyMutation (byKey : String) (ak : ActionKey) (data rd : Val)
    (S : StoreState) : Option (StoreState × Val) :=
  match ak with
  | .get => some (setInstance byKey S rd, rd)
  | .getList =>
      match getListExtract rd with
      | some (items, cnt) => some (setCount (setList byKey S items) cnt, .varr items)
      | none => none
  | .create => some (setInstance byKey S rd, rd)
  | .update => some (updateInstance byKey S rd, rd)
  | .delete => some (deleteInstance byKey S data, rd)
  | .custom _ => some (S, rd)

/-- The error path (`catch` block): `actionError(store, actionKey, error)` —
note the source passes `actionKey`, not `loadingStateKey` — then the
descriptor's and the caller's `onError`, in that order. -/
def dispatchError (hp : HandlerPresence) (ak : ActionKey) (e : Val)
    (S : StoreState) : DispatchResult :=
  { state := actionError S ak.literal e,
    returned := .vundefined,
    transportCalled := true,
    calls :=
      (if hp.hasActionOnError then [HandlerCall.actionOnError e] else [])
        ++ (if hp.hasCallerOnError then [HandlerCall.callerOnError e] else []) }

/-- One invocation of the callable built by `getAction`:

1. single-flight guard on `getLoadingState(store, actionKey)`;
2. `initiateAction(store, loadingStateKey, {...update/delete ? {id} : {}})`
   with `id = data?.id`;
3. the transport call (`tr`), then the success path (mutation, then
   `finishAction(store, loadingStateKey)` with its `response` parameter left
   at the default `null`, then `sideEffects`, the descriptor callback and the
   call-site callback with the normalized data, returning that data) or the
   `catch` path. -/
def dispatch (byKey : String) (hp : HandlerPresence) (ak : ActionKey)
    (data : Val) (tr : Except Val Val) (S : StoreState) : DispatchResult :=
  if (getLoadingState S ak.literal).isLoading then
    ⟨S, .vundefined, false, []⟩
  else
    let extra : LoadingStatePartial :=
      if ak = .update ∨ ak = .delete
      then ⟨none, none, none, some (jsOptGet data "id"), none⟩
      else emptyPartial
    let S1 := initiateAction S ak.lsKey extra
    match tr with
    | .error e => dispatchError hp ak e S1
    | .ok rd =>
        match applyMutation byKey ak data rd S1 with
        | none => dispatchError hp ak (.vstr "TypeError") S1
        | some (S2, responseData) =>
            let S3 := finishAction S2 ak.lsKey .vnull
            { state := S3,
              returned := responseData,
              transportCalled := true,
              calls :=
                (if hp.hasSideEffects then [HandlerCall.sideEffects responseData] else [])
                  ++ (if hp.hasActionCallback then [HandlerCall.actionCallback responseData] else [])
                  ++ (if hp.hasCallerCallback then [HandlerCall.callerCallback responseData] else []) }

/-- The value a recorded callback invocation received. -/
def HandlerCall.arg : HandlerCall → Val
  | .sideEffects v => v
  | .actionCallback v => v
  | .callerCallback v => v
  | .actionOnError v => v
  | .callerOnError v => v

/-! ## Concrete fixtures used by witnesses and counterexamples -/

/-- No optional callbacks attached. -/
def hpNone : HandlerPresence := ⟨false, false, false, false, false⟩

/-- All optional callbacks attached. -/
def hpAll : HandlerPresence := ⟨true, true, true, true, true⟩

/-- A store state whose Collection holds one record `{id: 1}` under key `"1"`
with Count 5. -/
def stateOneRecCount5 : StoreState :=
  ⟨some [("1", .vobj [("id", .vint 1)])], 5, [], .vundefined⟩

/-- A pristine store state (`record: null`, `count: 0`). -/
def stateEmpty : StoreState := ⟨none, 0, [], .vundefined⟩

/-- The spec's update example: stored record `{id:1, name:"A", email:"a@x"}`. -/
def stateUpdateExample : StoreState :=
  ⟨some [("1", .vobj [("id", .vint 1), ("name", .vstr "A"), ("email", .vstr "a@x")])],
   1, [], .vundefined⟩

/-- A raw configuration `{route: "/users"}` with everything else defaulted. -/
def cfgUsers : RawConfig :=
  ⟨none, none, none, none, .rstr "/users", none, none, none, none⟩

/-- A raw configuration `{route: "/other", id: "userId"}`. -/
def cfgOther : RawConfig :=
  ⟨some "userId", none, none, none, .rstr "/other", none, none, none, none⟩

/-- A store state in which the custom action `activate`'s own loading-state
entry has `isLoading: true` (as set by `initiateAction` under
`loadingStateKey`). -/
def stateActivateLoading : StoreState :=
  ⟨none, 0, [("activate", ⟨true, .vnull, .vnull, .vnull, 0⟩)], .vundefined⟩

/-- The outcome of dispatching the custom action `activate` from a pristine
store when the transport rejects with the string `"boom"` and both error
handlers are attached. -/
def customFailResult : DispatchResult :=
  dispatch "id" hpAll (.custom "activate") (.vobj []) (.error (.vstr "boom"))
    stateEmpty

/-- The outcome of a successful `getList` dispatch from a pristine store
whose transport response is the plain array `[{id: 1}]`. -/
def getListOkResult : DispatchResult :=
  dispatch "id" hpNone .getList .vundefined (.ok (.varr [.vobj [("id", .vint 1)]]))
    stateEmpty

/-- A store state with two fetched records and Count 7, used to exercise
`patchList`. -/
def statePatch : StoreState :=
  ⟨some [("1", .vobj [("id", .vint 1), ("name", .vstr "A"), ("email", .vstr "e")]),
         ("2", .vobj [("id", .vint 2), ("name", .vstr "B")])],
   7, [], .vundefined⟩

/-- A `patchList` batch: one partial for the stored key `1`, one for the
absent key `9`. -/
def patchBatch : List Val :=
  [.vobj [("id", .vint 1), ("name", .vstr "N")],
   .vobj [("id", .vint 9), ("name", .vstr "X")]]

/-- Modelled from the claim's wording (C9), to be compared with
`validateConfig`: the default action entry with the claimed default
`method`, the inherited error handler, `null` transforms/callbacks and the
claimed default `route`. -/
def defaultActionEntry (method : String) (onError : Option FuncVal)
    (route : RouteV) : ResolvedAction :=
  ⟨method, none, none, onError, none, route⟩

/-- Modelled from the claim's wording (C9), to be compared with
`validateConfig`'s output: an absent or `false` slot disables the action;
`true` takes the defaults; an override object replaces exactly the fields it
carries and keeps the defaults for absent fields. -/
def specResolvesAction (d : ResolvedAction) :
    Option ActionSetting → Option ResolvedAction → Prop
  | none, res => res = none
  | some (.abool b), res => res = if b then some d else none
  | some (.aoverride o), res =>
      ∃ r, res = some r
        ∧ r.method = o.methodP.getD d.method
        ∧ r.route = o.routeP.getD d.route
        ∧ r.prepare = (o.prepareP <|> d.prepare)
        ∧ r.callback = (o.callbackP <|> d.callback)
        ∧ r.onError = (o.onErrorP <|> d.onError)
        ∧ r.prepareResponse = (o.prepareResponseP <|> d.prepareResponse)

/-- An override `{method: "put"}`. -/
def ovUpdatePut : ActionOverride := ⟨some "put", none, none, none, none, none⟩

/-- A raw configuration with `route: "/users"` and
`actions: {get: true, getList: true, update: {method: "put"}, delete: false}`
(`create` absent). -/
def cfgWithActions : RawConfig :=
  ⟨none, none, none, none, .rstr "/users", none, none, none,
   some ⟨some (.abool true), some (.abool true), none,
         some (.aoverride ovUpdatePut), some (.abool false), none⟩⟩

/-- A placeholder resolved action used only to project fields out of an
optional entry in witnesses. -/
def junkAction : ResolvedAction := ⟨"", none, none, none, none, .rstr ""⟩

/-! ## Association-list lemmas -/

theorem getEntry_cons (p : String × α) (o : List (String × α)) (k : String) :
    getEntry (p :: o) k = if p.1 = k then some p.2 else getEntry o k := by
  by_cases h : p.1 = k <;> simp [getEntry, List.find?_cons, h]

theorem getEntry_setEntry (o : List (String × α)) (k k' : String) (v : α) :
    getEntry (setEntry o k v) k' = if k' = k then some v else getEntry o k' := by
  induction o with
  | nil =>
      by_cases h : k' = k
      · simp [setEntry, getEntry_cons, h]
      · have h2 : ¬ k = k' := fun hc => h hc.symm
        simp [setEntry, getEntry_cons, getEntry, h, h2]
  | cons p o ih =>
      by_cases hp : p.1 = k
      · by_cases h : k' = k
        · simp [setEntry, hp, getEntry_cons, h]
        · have h2 : ¬ k = k' := fun hc => h hc.symm
          simp [setEntry, hp, getEntry_cons, h, h2]
      · by_cases h : k' = k
        · subst h
          simp [setEntry, hp, getEntry_cons, ih]
        · by_cases hpk : p.1 = k' <;> simp [setEntry, hp, getEntry_cons, h, hpk, ih]

theorem delEntry_cons (p : String × α) (o : List (String × α)) (k : String) :
    delEntry (p :: o) k = if p.1 != k then p :: delEntry o k else delEntry o k := by
  by_cases h : p.1 = k <;> simp [delEntry, List.filter_cons, h]

theorem getEntry_delEntry (o : List (String × α)) (k k' : String) :
    getEntry (delEntry o k) k' = if k' = k then none else getEntry o k' := by
  induction o with
  | nil => by_cases h : k' = k <;> simp [delEntry, getEntry, h]
  | cons p o ih =>
      by_cases hp : p.1 = k
      · have h1 : (p.1 != k) = false := by simp [hp]
        by_cases h : k' = k
        · subst h; simp [delEntry_cons, h1, ih]
        · have hpk : p.1 ≠ k' := fun hh => h (hp ▸ hh.symm ▸ rfl)
          simp [delEntry_cons, h1, h, getEntry_cons, hpk, ih]
      · have h1 : (p.1 != k) = true := by simp [hp]
        by_cases h : k' = k
        · subst h
          simp [delEntry_cons, h1, getEntry_cons, hp, ih]
        · by_cases hpk : p.1 = k'
          · simp [delEntry_cons, h1, h, getEntry_cons, hpk, ih]
          · simp [delEntry_cons, h1, h, getEntry_cons, hpk, ih]

/-! ## Loading-state and frame lemmas -/

theorem getLoadingState_setLoadingState_self (S : StoreState) (k : String)
    (p : LoadingStatePartial) :
    getLoadingState (setLoadingState S k p) k =
      applyPartial
        (match getEntry S.loadingState k with
          | some prev => { prev with sequence := prev.sequence + 1 }
          | none => defaultLoadingState) p := by
  simp [getLoadingState, setLoadingState, getEntry_setEntry]

theorem getLoadingState_setLoadingState_ne (S : StoreState) (k k' : String)
    (p : LoadingStatePartial) (h : k' ≠ k) :
    getLoadingState (setLoadingState S k p) k' = getLoadingState S k' := by
  simp [getLoadingState, setLoadingState, getEntry_setEntry, h]

/-- After `finishAction` with the default `null` response — the only way the
dispatcher ever calls it — the entry reads
`isLoading: false, error: null, response: null, id: null`. -/
theorem getLoadingState_finishAction_null (S : StoreState) (a : String) :
    (getLoadingState (finishAction S a .vnull) a).isLoading = false
  ∧ (getLoadingState (finishAction S a .vnull) a).error = .vnull
  ∧ (getLoadingState (finishAction S a .vnull) a).response = .vnull
  ∧ (getLoadingState (finishAction S a .vnull) a).id = .vnull := by
  refine ⟨?_, ?_, ?_, ?_⟩ <;>
    simp [finishAction, getLoadingState_setLoadingState_self, applyPartial,
      jsOptGet, jsOr, truthy]

theorem record_setLoadingState (S : StoreState) (k : String)
    (p : LoadingStatePartial) :
    (setLoadingState S k p).record = S.record ∧
    (setLoadingState S k p).count = S.count ∧
    (setLoadingState S k p).localState = S.localState := ⟨rfl, rfl, rfl⟩

theorem loadingState_setList (byKey : String) (S : StoreState) (data : List Val) :
    (setList byKey S data).loadingState = S.loadingState ∧
    (setList byKey S data).localState = S.localState ∧
    (setList byKey S data).count = S.count := ⟨rfl, rfl, rfl⟩

theorem loadingState_setInstance (byKey : String) (S : StoreState) (v : Val) :
    (setInstance byKey S v).loadingState = S.loadingState ∧
    (setInstance byKey S v).localState = S.localState := ⟨rfl, rfl⟩

theorem loadingState_updateInstance (byKey : String) (S : StoreState) (v : Val) :
    (updateInstance byKey S v).loadingState = S.loadingState ∧
    (updateInstance byKey S v).localState = S.localState ∧
    (updateInstance byKey S v).count = S.count := by
  rcases hS : S.record with _ | rec <;>
    simp [updateInstance, hS]

theorem loadingState_deleteInstance (byKey : String) (S : StoreState) (v : Val) :
    (deleteInstance byKey S v).loadingState = S.loadingState ∧
    (deleteInstance byKey S v).localState = S.localState := by
  rcases hS : S.record with _ | rec <;>
    simp [deleteInstance, hS]

theorem loadingState_patchList (byKey : String) (S : StoreState) (data : List Val) :
    (patchList byKey S data).loadingState = S.loadingState ∧
    (patchList byKey S data).localState = S.localState ∧
    (patchList byKey S data).count = S.count := by
  rcases hS : S.record with _ | rec <;>
    simp [patchList, hS]

/-! ## Dispatch characterizations (helper lemmas) -/

/-- A successful `create` dispatch upserts the response record at its key,
increments the count exactly when `state.record && state.record[key]` was
falsy, and leaves the `create` entry not loading. -/
theorem dispatch_create_spec (byKey : String) (hp : HandlerPresence) (d rd : Val)
    (S : StoreState)
    (hguard : (getLoadingState S "create").isLoading = false) :
    (dispatch byKey hp .create d (.ok rd) S).state.record
        = some (setEntry (S.record.getD []) (valToKeyString (jsGet rd byKey)) rd)
  ∧ (dispatch byKey hp .create d (.ok rd) S).state.count
        = S.count + (if (match S.record with
            | some rec => truthy ((getEntry rec (valToKeyString (jsGet rd byKey))).getD .vundefined)
            | none => false) = true then 0 else 1)
  ∧ (getLoadingState (dispatch byKey hp .create d (.ok rd) S).state "create").isLoading
        = false := by
  have hlit : ActionKey.create.literal = "create" := rfl
  have hls : ActionKey.create.lsKey = "create" := rfl
  simp only [getLoadingState] at hguard
  refine ⟨?_, ?_, ?_⟩ <;>
    simp [dispatch, hlit, hls, hguard, applyMutation, setInstance, initiateAction,
      finishAction, setLoadingState, getLoadingState, getEntry_setEntry,
      applyPartial, overlayPartial, emptyPartial]

/-- A successful `delete` dispatch removes the request payload's key from the
Collection (when present) and decrements the count floored at zero whenever
the Collection is non-null; a `null` Collection is left untouched. -/
theorem dispatch_delete_spec (byKey : String) (hp : HandlerPresence) (d rd : Val)
    (S : StoreState)
    (hguard : (getLoadingState S "delete").isLoading = false) :
    (∀ rec, S.record = some rec →
        (dispatch byKey hp .delete d (.ok rd) S).state.record
            = some (if truthy ((getEntry rec (valToKeyString (jsGet d byKey))).getD .vundefined)
                    then delEntry rec (valToKeyString (jsGet d byKey)) else rec)
      ∧ (dispatch byKey hp .delete d (.ok rd) S).state.count
            = (if S.count > 0 then S.count - 1 else 0))
  ∧ (S.record = none →
        (dispatch byKey hp .delete d (.ok rd) S).state.record = none
      ∧ (dispatch byKey hp .delete d (.ok rd) S).state.count = S.count) := by
  have hlit : ActionKey.delete.literal = "delete" := rfl
  have hls : ActionKey.delete.lsKey = "delete" := rfl
  simp only [getLoadingState] at hguard
  constructor
  · intro rec hrec
    constructor <;>
      simp [dispatch, hlit, hls, hguard, applyMutation, deleteInstance,
        initiateAction, finishAction, setLoadingState, getLoadingState, hrec]
  · intro hrec
    constructor <;>
      simp [dispatch, hlit, hls, hguard, applyMutation, deleteInstance,
        initiateAction, finishAction, setLoadingState, getLoadingState, hrec]

/-! ## Claims -/

/-- C1: for every entity key and raw configurations `cfgA`, `cfgB`,
`getOrCreateStore(K, cfgA)` followed by `getOrCreateStore(K, cfgB)` returns
the identical Store both times (the second call returns the stored instance
and leaves the registry untouched), the Store's attached resolved
configuration is `validateConfig cfgA`, and `cfgB` is never validated or
applied: the second call's result is independent of `cfgB`, which is
universally quantified. -/
theorem registry_first_writer_wins
    (reg : Registry) (k : String) (cfgA cfgB : RawConfig)
    (h : getEntry reg k = none) :
    (getOrCreateStore (getOrCreateStore reg k cfgA).2 k cfgB).1
        = (getOrCreateStore reg k cfgA).1
  ∧ (getOrCreateStore (getOrCreateStore reg k cfgA).2 k cfgB).2
        = (getOrCreateStore reg k cfgA).2
  ∧ (getOrCreateStore reg k cfgA).1.config = validateConfig cfgA := by
  refine ⟨?_, ?_, ?_⟩ <;>
    simp [getOrCreateStore, h, getEntry_setEntry, mkStore]

/-- Witness for C1 at the empty registry, key `"users"` and two concrete
configurations with different routes. -/
theorem registry_first_writer_wins_witness :
    getEntry ([] : Registry) "users" = none
  ∧ ((getOrCreateStore (getOrCreateStore [] "users" cfgUsers).2 "users" cfgOther).1
        = (getOrCreateStore [] "users" cfgUsers).1
    ∧ (getOrCreateStore (getOrCreateStore [] "users" cfgUsers).2 "users" cfgOther).2
        = (getOrCreateStore [] "users" cfgUsers).2
    ∧ (getOrCreateStore [] "users" cfgUsers).1.config = validateConfig cfgUsers) :=
  ⟨rfl, registry_first_writer_wins [] "users" cfgUsers cfgOther rfl⟩

/-- C3 (code bug): with `byKey = "id"` and the spec's example Collection
`{1: {id:1, name:"A", email:"a@x"}}`, a successful `update` whose response is
`{id:1, name:"B"}` stores `{id:1, name:"B"}` — the `email` field is lost,
because `updateInstance` spreads `state.record[byKey]` (the record stored
under the literal key-field name `"id"`, which does not exist) instead of
`state.record[instance[byKey]]`; the library's own test
(`useStore.test.ts`, "should handle record operations correctly") expects
the absent field to be preserved. The same slip makes an update whose key is
absent from the Collection insert a new record instead of being skipped. -/
theorem update_merge_drops_absent_fields :
    (dispatch "id" hpNone .update (.vobj [("id", .vint 1)])
        (.ok (.vobj [("id", .vint 1), ("name", .vstr "B")]))
        stateUpdateExample).state.record
      = some [("1", .vobj [("id", .vint 1), ("name", .vstr "B")])]
  ∧ jsGet ((getEntry [("1", Val.vobj [("id", .vint 1), ("name", .vstr "B")])] "1").getD .vundefined)
        "email" = .vundefined
  ∧ (updateInstance "id" ⟨some [], 0, [], .vundefined⟩ (.vobj [("id", .vint 9)])).record
      = some [("9", .vobj [("id", .vint 9)])] :=
  ⟨rfl, rfl, rfl⟩

/-- C5 counterexample: the claim says deleting a key that is not in the
Collection leaves Count unchanged, but with the Collection `{1: {id:1}}` and
Count 5, a successful `delete({id:7})` leaves Count 4, not 5: the source
decrements unconditionally whenever the Collection is non-null. -/
theorem delete_absent_key_still_decrements :
    (dispatch "id" hpNone .delete (.vobj [("id", .vint 7)]) (.ok (.vobj []))
        stateOneRecCount5).state.count = 4
  ∧ ¬ (dispatch "id" hpNone .delete (.vobj [("id", .vint 7)]) (.ok (.vobj []))
        stateOneRecCount5).state.count = 5 := by
  constructor
  · rfl
  · intro hc
    have : (4 : Int) = 5 := by
      have h4 : (dispatch "id" hpNone .delete (.vobj [("id", .vint 7)]) (.ok (.vobj []))
          stateOneRecCount5).state.count = 4 := rfl
      omega
    omega

/-- C5 (amended): after a successful `delete` whose request payload's key
value coerces to `k`, the record stored under `k` (taken from the request
payload, not the response) is removed from the Collection when present, no
exception is thrown (the model is a total function), and — whenever the
Collection is non-null — Count is decremented by 1 floored at 0 *even when
`k` is absent*; when the Collection is still `null`, neither the Collection
nor Count changes. -/
theorem delete_removes_payload_key (byKey : String) (hp : HandlerPresence)
    (d rd : Val) (S : StoreState)
    (hguard : (getLoadingState S "delete").isLoading = false) :
    (∀ rec, S.record = some rec →
        (dispatch byKey hp .delete d (.ok rd) S).state.record
            = some (if truthy ((getEntry rec (valToKeyString (jsGet d byKey))).getD .vundefined)
                    then delEntry rec (valToKeyString (jsGet d byKey)) else rec)
      ∧ (dispatch byKey hp .delete d (.ok rd) S).state.count
            = (if S.count > 0 then S.count - 1 else 0))
  ∧ (S.record = none →
        (dispatch byKey hp .delete d (.ok rd) S).state.record = none
      ∧ (dispatch byKey hp .delete d (.ok rd) S).state.count = S.count) :=
  dispatch_delete_spec byKey hp d rd S hguard

/-- Witness for C5's amended theorem: deleting the present key `"1"` from
`{1: {id:1}}` with Count 5 removes it and leaves Count 4. -/
theorem delete_removes_payload_key_witness :
    (getLoadingState stateOneRecCount5 "delete").isLoading = false
  ∧ (dispatch "id" hpNone .delete (.vobj [("id", .vint 1)]) (.ok (.vobj []))
        stateOneRecCount5).state.record = some []
  ∧ (dispatch "id" hpNone .delete (.vobj [("id", .vint 1)]) (.ok (.vobj []))
        stateOneRecCount5).state.count = 4 := by
  have h := (delete_removes_payload_key "id" hpNone (.vobj [("id", .vint 1)])
      (.vobj []) stateOneRecCount5 rfl).1 [("1", .vobj [("id", .vint 1)])] rfl
  refine ⟨rfl, ?_, ?_⟩
  · simpa using h.1
  · simpa using h.2

/-- C7: the upsert performed by `create` increments Count exactly when the
response record's key was not already present; hence two `create` calls whose
responses carry the same key increment Count by exactly 1 in total (the
second call's single-flight guard is provably clear because the first call
finished). -/
theorem create_counts_new_keys_once (byKey : String) (hp : HandlerPresence)
    (d1 d2 rd : Val) (S : StoreState)
    (hguard : (getLoadingState S "create").isLoading = false)
    (htr : truthy rd = true)
    (habsent : ∀ rec, S.record = some rec →
        truthy ((getEntry rec (valToKeyString (jsGet rd byKey))).getD .vundefined) = false) :
    (dispatch byKey hp .create d1 (.ok rd) S).state.count = S.count + 1
  ∧ (dispatch byKey hp .create d2 (.ok rd)
        (dispatch byKey hp .create d1 (.ok rd) S).state).state.count = S.count + 1
  ∧ (∀ T rec, T.record = some rec →
        truthy ((getEntry rec (valToKeyString (jsGet rd byKey))).getD .vundefined) = true →
        (getLoadingState T "create").isLoading = false →
        (dispatch byKey hp .create d2 (.ok rd) T).state.count = T.count) := by
  obtain ⟨hrec1, hcount1, hdone1⟩ := dispatch_create_spec byKey hp d1 rd S hguard
  have habs : (match S.record with
      | some rec => truthy ((getEntry rec (valToKeyString (jsGet rd byKey))).getD .vundefined)
      | none => false) = false := by
    rcases hS : S.record with _ | rec
    · rfl
    · exact habsent rec hS
  have h1 : (dispatch byKey hp .create d1 (.ok rd) S).state.count = S.count + 1 := by
    rw [hcount1, habs]; simp
  refine ⟨h1, ?_, ?_⟩
  · obtain ⟨hrec2, hcount2, _⟩ :=
      dispatch_create_spec byKey hp d2 rd
        (dispatch byKey hp .create d1 (.ok rd) S).state hdone1
    rw [hcount2, hrec1]
    simp [getEntry_setEntry, htr, h1]
  · intro T rec hT hpresent hguardT
    obtain ⟨_, hcountT, _⟩ := dispatch_create_spec byKey hp d2 rd T hguardT
    rw [hcountT, hT]
    simp [hpresent]

/-- Witness for C7: from a pristine store, two `create` dispatches whose
responses both carry `id: 3` leave Count at exactly 1. -/
theorem create_counts_new_keys_once_witness :
    (getLoadingState stateEmpty "create").isLoading = false
  ∧ truthy (.vobj [("id", .vint 3)]) = true
  ∧ (dispatch "id" hpNone .create (.vobj [("name", .vstr "x")])
        (.ok (.vobj [("id", .vint 3)]))
        (dispatch "id" hpNone .create (.vobj [("name", .vstr "x")])
          (.ok (.vobj [("id", .vint 3)])) stateEmpty).state).state.count = 0 + 1 := by
  have h := create_counts_new_keys_once "id" hpNone (.vobj [("name", .vstr "x")])
      (.vobj [("name", .vstr "x")]) (.vobj [("id", .vint 3)]) stateEmpty rfl rfl
      (fun rec hrec => by simp [stateEmpty] at hrec)
  exact ⟨rfl, rfl, h.2.1⟩


/-- C2 (code bug): the single-flight guard reads
`getLoadingState(store, actionKey)` — the literal `'custom'` key for every
custom action — instead of `loadingStateKey` (the custom action's own name),
so invoking a custom action whose own Loading-State Entry has
`isLoading === true` still issues the transport call instead of returning
immediately. For the five standard actions `actionKey` and `loadingStateKey`
coincide and the guard works as claimed. -/
theorem custom_action_single_flight_broken :
    (getLoadingState stateActivateLoading "activate").isLoading = true
  ∧ (dispatch "id" hpNone (.custom "activate") (.vobj []) (.ok (.vobj []))
        stateActivateLoading).transportCalled = true
  ∧ (dispatch "id" hpNone .getList .vundefined (.ok (.varr []))
        ⟨none, 0, [("getList", ⟨true, .vnull, .vnull, .vnull, 0⟩)], .vundefined⟩).transportCalled
      = false :=
  ⟨rfl, rfl, rfl⟩

/-- C4 (code bug): on transport rejection of a custom action, the `catch`
block calls `actionError(store, actionKey, error)` with the literal
`'custom'` key, so the rejection value lands in the `custom` entry while the
action's own entry (written by `initiateAction` under `loadingStateKey`)
stays `isLoading: true` with `error: null` forever. The remaining parts of
the claim are visible at the same input: the Collection and Count are
unchanged, both error handlers receive the rejection value, and the promise
resolves to `undefined`. -/
theorem custom_action_error_wrong_entry :
    (getLoadingState customFailResult.state "activate").isLoading = true
  ∧ (getLoadingState customFailResult.state "activate").error = .vnull
  ∧ (getLoadingState customFailResult.state "custom").isLoading = false
  ∧ (getLoadingState customFailResult.state "custom").error = .vstr "boom"
  ∧ customFailResult.state.record = stateEmpty.record
  ∧ customFailResult.state.count = stateEmpty.count
  ∧ customFailResult.calls
      = [.actionOnError (.vstr "boom"), .callerOnError (.vstr "boom")]
  ∧ customFailResult.returned = .vundefined :=
  ⟨rfl, rfl, rfl, rfl, rfl, rfl, rfl, rfl⟩

/-- C6 counterexample: after a successful `getList` whose normalized response
data is the non-null array `[{id: 1}]`, the entry's `response` is `null` —
not that data — because the dispatcher calls `finishAction(store,
loadingStateKey)` without passing the response, leaving the parameter at its
default `null`. -/
theorem finish_never_receives_response :
    (getLoadingState getListOkResult.state "getList").response = .vnull
  ∧ getListOkResult.returned = .varr [.vobj [("id", .vint 1)]]
  ∧ (Val.varr [.vobj [("id", .vint 1)]] ≠ .vnull) :=
  ⟨rfl, rfl, nofun⟩

/-- C6 (amended): when a transport call for any action succeeds, after the
Collection mutation the action's Loading-State Entry (under
`loadingStateKey`) is set by `finishAction` called with no response
argument, so it always reads `isLoading: false`, `error: null`,
`response: null`, `id: null` — regardless of the response data. -/
theorem dispatch_success_resets_entry (byKey : String) (hp : HandlerPresence)
    (ak : ActionKey) (d rd : Val) (S : StoreState)
    (hguard : (getLoadingState S ak.literal).isLoading = false)
    (hok : ak = ActionKey.getList → (getListExtract rd).isSome = true) :
    (getLoadingState (dispatch byKey hp ak d (.ok rd) S).state ak.lsKey).isLoading = false
  ∧ (getLoadingState (dispatch byKey hp ak d (.ok rd) S).state ak.lsKey).error = .vnull
  ∧ (getLoadingState (dispatch byKey hp ak d (.ok rd) S).state ak.lsKey).response = .vnull
  ∧ (getLoadingState (dispatch byKey hp ak d (.ok rd) S).state ak.lsKey).id = .vnull := by
  cases ak with
  | get =>
      simp only [getLoadingState, ActionKey.literal] at hguard
      refine ⟨?_, ?_, ?_, ?_⟩ <;>
        simp [dispatch, ActionKey.literal, ActionKey.lsKey, hguard, applyMutation,
          setInstance, initiateAction, finishAction, setLoadingState, getLoadingState,
          getEntry_setEntry, applyPartial, overlayPartial, emptyPartial, jsOptGet,
          jsOr, truthy]
  | getList =>
      simp only [getLoadingState, ActionKey.literal] at hguard
      have hsome := hok rfl
      rcases ho : getListExtract rd with _ | pr
      · rw [ho] at hsome; simp at hsome
      · obtain ⟨items, cnt⟩ := pr
        refine ⟨?_, ?_, ?_, ?_⟩ <;>
          simp [dispatch, ActionKey.literal, ActionKey.lsKey, hguard, applyMutation, ho,
            setList, setCount, initiateAction, finishAction, setLoadingState,
            getLoadingState, getEntry_setEntry, applyPartial, overlayPartial,
            emptyPartial, jsOptGet, jsOr, truthy]
  | create =>
      simp only [getLoadingState, ActionKey.literal] at hguard
      refine ⟨?_, ?_, ?_, ?_⟩ <;>
        simp [dispatch, ActionKey.literal, ActionKey.lsKey, hguard, applyMutation,
          setInstance, initiateAction, finishAction, setLoadingState, getLoadingState,
          getEntry_setEntry, applyPartial, overlayPartial, emptyPartial, jsOptGet,
          jsOr, truthy]
  | update =>
      simp only [getLoadingState, ActionKey.literal] at hguard
      rcases hS : S.record with _ | rec
      all_goals refine ⟨?_, ?_, ?_, ?_⟩
      all_goals
        simp [dispatch, ActionKey.literal, ActionKey.lsKey, hguard, applyMutation,
          updateInstance, hS, initiateAction, finishAction, setLoadingState,
          getLoadingState, getEntry_setEntry, applyPartial, overlayPartial,
          emptyPartial, jsOptGet, jsOr, truthy]
  | delete =>
      simp only [getLoadingState, ActionKey.literal] at hguard
      rcases hS : S.record with _ | rec
      all_goals refine ⟨?_, ?_, ?_, ?_⟩
      all_goals
        simp [dispatch, ActionKey.literal, ActionKey.lsKey, hguard, applyMutation,
          deleteInstance, hS, initiateAction, finishAction, setLoadingState,
          getLoadingState, getEntry_setEntry, applyPartial, overlayPartial,
          emptyPartial, jsOptGet, jsOr, truthy]
  | custom name =>
      simp only [getLoadingState, ActionKey.literal] at hguard
      refine ⟨?_, ?_, ?_, ?_⟩ <;>
        simp [dispatch, ActionKey.literal, ActionKey.lsKey, hguard, applyMutation,
          initiateAction, finishAction, setLoadingState, getLoadingState,
          getEntry_setEntry, applyPartial, overlayPartial, emptyPartial, jsOptGet,
          jsOr, truthy]

/-- Witness for C6's amended theorem at the concrete successful `getList`
dispatch of `getListOkResult`. -/
theorem dispatch_success_resets_entry_witness :
    (getLoadingState getListOkResult.state "getList").isLoading = false
  ∧ (getLoadingState getListOkResult.state "getList").error = .vnull
  ∧ (getLoadingState getListOkResult.state "getList").response = .vnull
  ∧ (getLoadingState getListOkResult.state "getList").id = .vnull := by
  have h := dispatch_success_resets_entry "id" hpNone .getList .vundefined
      (.varr [.vobj [("id", .vint 1)]]) stateEmpty rfl (fun _ => rfl)
  exact h


/-- If `(x).getD undefined` is truthy then `x` was present. -/
theorem isSome_of_truthy_getD (x : Option Val)
    (h : truthy (x.getD .vundefined) = true) : x.isSome = true := by
  rcases x with _ | v
  · simp [truthy] at h
  · rfl

/-- `patchStep` never changes which keys are present. -/
theorem isSome_getEntry_patchStep (byKey : String) (rec : List (String × Val))
    (p : Val) (k : String) :
    (getEntry (patchStep byKey rec p) k).isSome = (getEntry rec k).isSome := by
  unfold patchStep
  by_cases ht : truthy ((getEntry rec (valToKeyString (jsGet p byKey))).getD .vundefined) = true
  · simp only [ht, if_true]
    rw [getEntry_setEntry]
    by_cases hk : k = valToKeyString (jsGet p byKey)
    · subst hk
      simp [isSome_of_truthy_getD _ ht]
    · simp [hk]
  · simp [ht]

/-- The `patchList` fold never changes which keys are present. -/
theorem isSome_getEntry_patch_fold (byKey : String) (ps : List Val)
    (rec : List (String × Val)) (k : String) :
    (getEntry (ps.foldl (patchStep byKey) rec) k).isSome = (getEntry rec k).isSome := by
  induction ps generalizing rec with
  | nil => rfl
  | cons p ps ih =>
      rw [List.foldl_cons, ih, isSome_getEntry_patchStep]

/-- A key not mentioned by any partial of the batch is untouched by the
`patchList` fold. -/
theorem getEntry_patch_fold_untouched (byKey : String) (ps : List Val)
    (rec : List (String × Val)) (k : String)
    (h : ∀ p ∈ ps, valToKeyString (jsGet p byKey) ≠ k) :
    getEntry (ps.foldl (patchStep byKey) rec) k = getEntry rec k := by
  induction ps generalizing rec with
  | nil => rfl
  | cons p ps ih =>
      rw [List.foldl_cons, ih _ (fun q hq => h q (List.mem_cons_of_mem _ hq))]
      unfold patchStep
      by_cases ht : truthy ((getEntry rec (valToKeyString (jsGet p byKey))).getD .vundefined) = true
      · have hk : k ≠ valToKeyString (jsGet p byKey) :=
          fun hc => h p (List.mem_cons_self _ _) hc.symm
        simp [ht, getEntry_setEntry, hk]
      · simp [ht]

/-- When exactly one partial of the batch carries key `k` and a truthy record
is stored at `k`, the fold replaces it by the shallow merge of the stored
record with that partial. -/
theorem getEntry_patch_fold_single (byKey : String) (ps : List Val)
    (k : String) (p : Val) :
    ∀ (rec : List (String × Val)) (old : Val),
    ps.filter (fun q => valToKeyString (jsGet q byKey) == k) = [p] →
    getEntry rec k = some old → truthy old = true →
    getEntry (ps.foldl (patchStep byKey) rec) k
      = some (.vobj (mergeObj (spreadOf old) (spreadOf p))) := by
  induction ps with
  | nil => intro rec old hfilter; simp at hfilter
  | cons q ps ih =>
      intro rec old hfilter hold ht
      by_cases hq : valToKeyString (jsGet q byKey) = k
      · rw [List.filter_cons_of_pos (by simp [hq])] at hfilter
        have hqp : q = p := (List.cons_eq_cons.mp hfilter).1
        have hrest : ps.filter (fun r => valToKeyString (jsGet r byKey) == k) = [] :=
          (List.cons_eq_cons.mp hfilter).2
        have huntouched : ∀ r ∈ ps, valToKeyString (jsGet r byKey) ≠ k := by
          intro r hr hc
          have : r ∈ ps.filter (fun r => valToKeyString (jsGet r byKey) == k) :=
            List.mem_filter.mpr ⟨hr, by simp [hc]⟩
          rw [hrest] at this
          simp at this
        rw [List.foldl_cons, getEntry_patch_fold_untouched _ _ _ _ huntouched]
        unfold patchStep
        subst hqp
        simp [hq, hold, ht, getEntry_setEntry]
      · rw [List.filter_cons_of_neg (by simp [hq])] at hfilter
        rw [List.foldl_cons]
        refine ih _ old hfilter ?_ ht
        unfold patchStep
        by_cases ht2 : truthy ((getEntry rec (valToKeyString (jsGet q byKey))).getD .vundefined) = true
        · have hk : k ≠ valToKeyString (jsGet q byKey) := fun hc => hq hc.symm
          simp [ht2, getEntry_setEntry, hk, hold]
        · simp [ht2, hold]

/-- C10: `patchList(partials)` shallow-merges each partial into the stored
record with the same key and is conservative everywhere else: Count, the
loading-state map and the local state blob never change; a `null` Collection
makes it a complete no-op; key presence is preserved (no inserts); keys not
mentioned in the batch keep their records; and a present key mentioned by
exactly one partial ends up as `{...stored, ...partial}`. -/
theorem patchList_conservative_merge (byKey : String) (S : StoreState)
    (ps : List Val) :
    (patchList byKey S ps).count = S.count
  ∧ (patchList byKey S ps).loadingState = S.loadingState
  ∧ (patchList byKey S ps).localState = S.localState
  ∧ (S.record = none → patchList byKey S ps = S)
  ∧ (∀ rec, S.record = some rec →
      (patchList byKey S ps).record = some (ps.foldl (patchStep byKey) rec)
    ∧ (∀ k, (getEntry (ps.foldl (patchStep byKey) rec) k).isSome
          = (getEntry rec k).isSome)
    ∧ (∀ k, (∀ p ∈ ps, valToKeyString (jsGet p byKey) ≠ k) →
          getEntry (ps.foldl (patchStep byKey) rec) k = getEntry rec k)
    ∧ (∀ k p old,
          ps.filter (fun q => valToKeyString (jsGet q byKey) == k) = [p] →
          getEntry rec k = some old → truthy old = true →
          getEntry (ps.foldl (patchStep byKey) rec) k
            = some (.vobj (mergeObj (spreadOf old) (spreadOf p))))) := by
  obtain ⟨hl, hs, hc⟩ := loadingState_patchList byKey S ps
  refine ⟨hc, hl, hs, ?_, ?_⟩
  · intro h; simp [patchList, h]
  · intro rec hrec
    refine ⟨by simp [patchList, hrec], ?_, ?_, ?_⟩
    · intro k; exact isSome_getEntry_patch_fold byKey ps rec k
    · intro k hk; exact getEntry_patch_fold_untouched byKey ps rec k hk
    · intro k p old hfilter hold ht
      exact getEntry_patch_fold_single byKey ps k p rec old hfilter hold ht


/-- Every callback recorded on the success path received the (normalized)
response data. -/
theorem arg_of_mem_successCalls (hp : HandlerPresence) (v : Val)
    (c : HandlerCall)
    (hc : c ∈ (if hp.hasSideEffects then [HandlerCall.sideEffects v] else [])
        ++ ((if hp.hasActionCallback then [HandlerCall.actionCallback v] else [])
        ++ (if hp.hasCallerCallback then [HandlerCall.callerCallback v] else []))) :
    c.arg = v := by
  rcases List.mem_append.mp hc with h | h
  · split_ifs at h
    · simp at h; subst h; rfl
    · simp at h
  · rcases List.mem_append.mp h with h2 | h2
    · split_ifs at h2
      · simp at h2; subst h2; rfl
      · simp at h2
    · split_ifs at h2
      · simp at h2; subst h2; rfl
      · simp at h2

/-- C8: after a successful `getList` whose response is the envelope
`{results, count}` the Collection is replaced by exactly the records of
`results` keyed by the configured key field and Count is the envelope's
count; with a plain array response the Collection is replaced by that
array's records and Count is the array's length; in both cases the response
is normalized to the plain record array before any callback fires (every
recorded callback receives it) and the normalized array is the value the
returned promise resolves to. -/
theorem getList_replaces_collection (byKey : String) (hp : HandlerPresence)
    (d : Val) (S : StoreState) (items : List Val) (fields : Obj) (n : Int)
    (hguard : (getLoadingState S "getList").isLoading = false)
    (hres : getEntry fields "results" = some (.varr items))
    (hcnt : getEntry fields "count" = some (.vint n)) :
    ((dispatch byKey hp .getList d (.ok (.vobj fields)) S).state.record
        = some (items.foldl (fun acc item =>
            setEntry acc (valToKeyString (jsGet item byKey)) item) [])
      ∧ (dispatch byKey hp .getList d (.ok (.vobj fields)) S).state.count = n
      ∧ (dispatch byKey hp .getList d (.ok (.vobj fields)) S).returned = .varr items
      ∧ ∀ c ∈ (dispatch byKey hp .getList d (.ok (.vobj fields)) S).calls,
          c.arg = .varr items)
  ∧ ((dispatch byKey hp .getList d (.ok (.varr items)) S).state.record
        = some (items.foldl (fun acc item =>
            setEntry acc (valToKeyString (jsGet item byKey)) item) [])
      ∧ (dispatch byKey hp .getList d (.ok (.varr items)) S).state.count
          = (items.length : Int)
      ∧ (dispatch byKey hp .getList d (.ok (.varr items)) S).returned = .varr items
      ∧ ∀ c ∈ (dispatch byKey hp .getList d (.ok (.varr items)) S).calls,
          c.arg = .varr items) := by
  simp only [getLoadingState] at hguard
  have hext1 : getListExtract (.vobj fields) = some (items, n) := by
    simp [getListExtract, jsGet, hres, hcnt]
  have hext2 : getListExtract (.varr items) = some (items, (items.length : Int)) := rfl
  constructor
  · refine ⟨?_, ?_, ?_, ?_⟩
    · simp [dispatch, ActionKey.literal, ActionKey.lsKey, hguard, getLoadingState, applyMutation,
        hext1, setList, setCount, initiateAction, finishAction, setLoadingState,
        emptyPartial]
    · simp [dispatch, ActionKey.literal, ActionKey.lsKey, hguard, getLoadingState, applyMutation,
        hext1, setList, setCount, initiateAction, finishAction, setLoadingState,
        emptyPartial]
    · simp [dispatch, ActionKey.literal, ActionKey.lsKey, hguard, getLoadingState, applyMutation,
        hext1, emptyPartial]
    · have hcalls : (dispatch byKey hp .getList d (.ok (.vobj fields)) S).calls
          = (if hp.hasSideEffects then [HandlerCall.sideEffects (.varr items)] else [])
            ++ ((if hp.hasActionCallback then [HandlerCall.actionCallback (.varr items)] else [])
            ++ (if hp.hasCallerCallback then [HandlerCall.callerCallback (.varr items)] else [])) := by
        simp [dispatch, ActionKey.literal, ActionKey.lsKey, hguard, getLoadingState, applyMutation,
          hext1, emptyPartial]
      intro c hc
      rw [hcalls] at hc
      exact arg_of_mem_successCalls hp _ c hc
  · refine ⟨?_, ?_, ?_, ?_⟩
    · simp [dispatch, ActionKey.literal, ActionKey.lsKey, hguard, getLoadingState, applyMutation,
        hext2, setList, setCount, initiateAction, finishAction, setLoadingState,
        emptyPartial]
    · simp [dispatch, ActionKey.literal, ActionKey.lsKey, hguard, getLoadingState, applyMutation,
        hext2, setList, setCount, initiateAction, finishAction, setLoadingState,
        emptyPartial]
    · simp [dispatch, ActionKey.literal, ActionKey.lsKey, hguard, getLoadingState, applyMutation,
        hext2, emptyPartial]
    · have hcalls : (dispatch byKey hp .getList d (.ok (.varr items)) S).calls
          = (if hp.hasSideEffects then [HandlerCall.sideEffects (.varr items)] else [])
            ++ ((if hp.hasActionCallback then [HandlerCall.actionCallback (.varr items)] else [])
            ++ (if hp.hasCallerCallback then [HandlerCall.callerCallback (.varr items)] else [])) := by
        simp [dispatch, ActionKey.literal, ActionKey.lsKey, hguard, getLoadingState, applyMutation,
          hext2, emptyPartial]
      intro c hc
      rw [hcalls] at hc
      exact arg_of_mem_successCalls hp _ c hc

/-- Witness for C8 at an envelope holding `{id:1}` and `{id:2}` with count 10
and at the bare two-record array. -/
theorem getList_replaces_collection_witness :
    (dispatch "id" hpAll .getList .vundefined
        (.ok (.vobj [("results", .varr [.vobj [("id", .vint 1)], .vobj [("id", .vint 2)]]),
                     ("count", .vint 10)])) stateEmpty).state.record
      = some [("1", .vobj [("id", .vint 1)]), ("2", .vobj [("id", .vint 2)])]
  ∧ (dispatch "id" hpAll .getList .vundefined
        (.ok (.vobj [("results", .varr [.vobj [("id", .vint 1)], .vobj [("id", .vint 2)]]),
                     ("count", .vint 10)])) stateEmpty).state.count = 10
  ∧ (dispatch "id" hpAll .getList .vundefined
        (.ok (.varr [.vobj [("id", .vint 1)], .vobj [("id", .vint 2)]]))
        stateEmpty).state.count = 2 := by
  have h := getList_replaces_collection "id" hpAll .vundefined stateEmpty
      [.vobj [("id", .vint 1)], .vobj [("id", .vint 2)]]
      [("results", .varr [.vobj [("id", .vint 1)], .vobj [("id", .vint 2)]]),
       ("count", .vint 10)] 10 rfl rfl rfl
  exact ⟨h.1.1.trans rfl, h.1.2.1, h.2.2.1⟩

/-- Witness for C10 on a two-record collection and a batch touching the
stored key `1` and the absent key `9`: the stored record is shallow-merged
(`email` preserved), nothing is inserted at `9`, the unmentioned key `2` and
Count are unchanged. -/
theorem patchList_conservative_merge_witness :
    (patchList "id" statePatch patchBatch).count = 7
  ∧ getEntry ((patchList "id" statePatch patchBatch).record.getD []) "1"
      = some (.vobj [("id", .vint 1), ("name", .vstr "N"), ("email", .vstr "e")])
  ∧ getEntry ((patchList "id" statePatch patchBatch).record.getD []) "9" = none
  ∧ getEntry ((patchList "id" statePatch patchBatch).record.getD []) "2"
      = some (.vobj [("id", .vint 2), ("name", .vstr "B")]) := by
  have h := patchList_conservative_merge "id" statePatch patchBatch
  obtain ⟨hrec, hkeys, huntouched, hsingle⟩ :=
    h.2.2.2.2 _ (rfl : statePatch.record = some _)
  refine ⟨by rw [h.1]; rfl, ?_, ?_, ?_⟩
  · rw [hrec]
    have := hsingle "1" (.vobj [("id", .vint 1), ("name", .vstr "N")])
      (.vobj [("id", .vint 1), ("name", .vstr "A"), ("email", .vstr "e")])
      rfl rfl rfl
    exact this.trans rfl
  · rw [hrec]
    have h9 := hkeys "9"
    have : (getEntry (patchBatch.foldl (patchStep "id")
        [("1", .vobj [("id", .vint 1), ("name", .vstr "A"), ("email", .vstr "e")]),
         ("2", .vobj [("id", .vint 2), ("name", .vstr "B")])]) "9").isSome = false := by
      rw [h9]; rfl
    simpa [Option.isSome_iff_exists] using this
  · rw [hrec]
    have := huntouched "2" ?_
    · exact this.trans rfl
    · intro p hp
      simp [patchBatch] at hp
      rcases hp with rfl | rfl <;> decide


/-- `resolveAction` satisfies the claimed disable/defaults/override rule. -/
theorem resolveAction_spec (d : ResolvedAction) (setting : Option ActionSetting) :
    specResolvesAction d setting (resolveAction d setting) := by
  rcases setting with _ | s
  · rfl
  · rcases s with b | o
    · rcases b <;> simp [specResolvesAction, resolveAction]
    · exact ⟨applyOverride d o, rfl, rfl, rfl, rfl, rfl, rfl, rfl⟩

/-- C9: `validateConfig` is a pure, deterministic (Lean) function whose
resolved action table follows the claimed rules for every configuration
containing a route: with `actions` omitted all five standard actions get
their defaults; otherwise each slot is resolved by the
disable/defaults/override rule of `specResolvesAction` with the claimed
default methods (`get`/`get`/`post`/`patch`/`delete`), the base route for
`getList` and `create` and the detail route for `get`, `update` and
`delete`; a function base route is used verbatim as the detail route; and a
string base route yields `base + value + "/"` when it ends with `"/"` and
`base + "/" + value` otherwise. Every enabled entry has a defined `method`
and `route` by construction of `ResolvedAction`. -/
theorem validateConfig_action_table (cfg : RawConfig) :
    (cfg.actionsP = none →
        (validateConfig cfg).actions.get
          = some (defaultActionEntry "get" cfg.onErrorP
              (getDetailRoute (some cfg.route) (cfg.idP.getD "id")))
      ∧ (validateConfig cfg).actions.getList
          = some (defaultActionEntry "get" cfg.onErrorP cfg.route)
      ∧ (validateConfig cfg).actions.create
          = some (defaultActionEntry "post" cfg.onErrorP cfg.route)
      ∧ (validateConfig cfg).actions.update
          = some (defaultActionEntry "patch" cfg.onErrorP
              (getDetailRoute (some cfg.route) (cfg.idP.getD "id")))
      ∧ (validateConfig cfg).actions.delete
          = some (defaultActionEntry "delete" cfg.onErrorP
              (getDetailRoute (some cfg.route) (cfg.idP.getD "id"))))
  ∧ (∀ a, cfg.actionsP = some a →
        specResolvesAction (defaultActionEntry "get" cfg.onErrorP
            (getDetailRoute (some cfg.route) (cfg.idP.getD "id"))) a.getP
          (validateConfig cfg).actions.get
      ∧ specResolvesAction (defaultActionEntry "get" cfg.onErrorP cfg.route)
          a.getListP (validateConfig cfg).actions.getList
      ∧ specResolvesAction (defaultActionEntry "post" cfg.onErrorP cfg.route)
          a.createP (validateConfig cfg).actions.create
      ∧ specResolvesAction (defaultActionEntry "patch" cfg.onErrorP
            (getDetailRoute (some cfg.route) (cfg.idP.getD "id"))) a.updateP
          (validateConfig cfg).actions.update
      ∧ specResolvesAction (defaultActionEntry "delete" cfg.onErrorP
            (getDetailRoute (some cfg.route) (cfg.idP.getD "id"))) a.deleteP
          (validateConfig cfg).actions.delete)
  ∧ (∀ f, cfg.route = .rfun f →
        getDetailRoute (some cfg.route) (cfg.idP.getD "id") = .rfun f)
  ∧ (∀ s fields opts, cfg.route = .rstr s →
        applyRoute (getDetailRoute (some cfg.route) (cfg.idP.getD "id"))
            (.vobj fields) opts
          = (if endsWithSlash s
             then s ++ valToKeyString ((getEntry fields (cfg.idP.getD "id")).getD .vundefined) ++ "/"
             else s ++ "/" ++ valToKeyString ((getEntry fields (cfg.idP.getD "id")).getD .vundefined))) := by
  refine ⟨?_, ?_, ?_, ?_⟩
  · intro h
    refine ⟨?_, ?_, ?_, ?_, ?_⟩ <;>
      simp [validateConfig, h, resolveAction, defaultActionEntry]
  · intro a ha
    have hget : (validateConfig cfg).actions.get
        = resolveAction (defaultActionEntry "get" cfg.onErrorP
            (getDetailRoute (some cfg.route) (cfg.idP.getD "id"))) a.getP := by
      simp [validateConfig, ha, defaultActionEntry]
    have hgetList : (validateConfig cfg).actions.getList
        = resolveAction (defaultActionEntry "get" cfg.onErrorP cfg.route) a.getListP := by
      simp [validateConfig, ha, defaultActionEntry]
    have hcreate : (validateConfig cfg).actions.create
        = resolveAction (defaultActionEntry "post" cfg.onErrorP cfg.route) a.createP := by
      simp [validateConfig, ha, defaultActionEntry]
    have hupdate : (validateConfig cfg).actions.update
        = resolveAction (defaultActionEntry "patch" cfg.onErrorP
            (getDetailRoute (some cfg.route) (cfg.idP.getD "id"))) a.updateP := by
      simp [validateConfig, ha, defaultActionEntry]
    have hdelete : (validateConfig cfg).actions.delete
        = resolveAction (defaultActionEntry "delete" cfg.onErrorP
            (getDetailRoute (some cfg.route) (cfg.idP.getD "id"))) a.deleteP := by
      simp [validateConfig, ha, defaultActionEntry]
    rw [hget, hgetList, hcreate, hupdate, hdelete]
    exact ⟨resolveAction_spec _ _, resolveAction_spec _ _, resolveAction_spec _ _,
      resolveAction_spec _ _, resolveAction_spec _ _⟩
  · intro f hf
    simp [getDetailRoute, hf]
  · intro s fields opts hs
    by_cases he : endsWithSlash s = true <;>
      simp [getDetailRoute, applyRoute, hs, he, String.append_assoc]

/-- Witness for C9 at `cfgWithActions`: the `update` override keeps the
detail route but replaces the method with `"put"`; the absent `create` slot
and the `false` `delete` slot are disabled; and the `get` detail route for
payload `{id: 123}` under base `"/users"` is `"/users/123"`. -/
theorem validateConfig_action_table_witness :
    ((validateConfig cfgWithActions).actions.update.getD junkAction).method = "put"
  ∧ (validateConfig cfgWithActions).actions.create = none
  ∧ (validateConfig cfgWithActions).actions.delete = none
  ∧ applyRoute ((validateConfig cfgWithActions).actions.get.getD junkAction).route
      (.vobj [("id", .vint 123)]) ⟨.vundefined, .vundefined⟩ = "/users/123" := by
  have h := validateConfig_action_table cfgWithActions
  obtain ⟨hg, hgl, hc, hu, hd⟩ := h.2.1 _ rfl
  refine ⟨?_, ?_, ?_, ?_⟩
  · obtain ⟨r, hr, hm, _⟩ := hu
    rw [hr]
    simpa [ovUpdatePut, defaultActionEntry] using hm
  · exact hc
  · simpa [specResolvesAction] using hd
  · have hg2 : (validateConfig cfgWithActions).actions.get
        = some (defaultActionEntry "get" cfgWithActions.onErrorP
            (getDetailRoute (some cfgWithActions.route) (cfgWithActions.idP.getD "id"))) := by
      simpa [specResolvesAction] using hg
    rw [hg2]
    have hroute := h.2.2.2 "/users" [("id", .vint 123)] ⟨.vundefined, .vundefined⟩ rfl
    simp only [Option.getD_some]
    exact hroute.trans (by rfl)

end ZCrud





